import Mathlib

/-!
# Verification of the BaseTransactionAnalyzer decoding/classification core

Shallow embedding of the log-decoding, transaction-classification, registry
lookup and gas/impermanent-loss metric routines of the repository, together
with proofs and refutations of the specification's claims about them.

Conventions used throughout:
* JavaScript strings are Lean `String`s; `log.topics[i]` accesses are modelled
  with `List.getD`/`List.headD` (the claims under study only exercise logs
  whose topics are present, so the JS `undefined` path is either guarded by an
  explicit hypothesis or leads to the same "skip / fail" outcome).
* `BigNumber`/`BigInt` values are `Nat` (arbitrary precision, as in the source).
* A TypeScript function that can throw is embedded with an `Option`/failure
  result, `none` meaning "an exception escapes"; a function whose body cannot
  throw is embedded as a total function.
* `ethers.getAddress` is modelled as validation of a 40-lowercase-hex-digit
  string returning the 160-bit address value (EIP-55 checksum casing is a
  bijective re-rendering of that value and is not modelled; receipt topics are
  lowercase hex).
-/

/-! ## Generic string/number helpers (models of the JS runtime and ethers) -/

/-- Value of a lowercase hex digit character, as accepted by
`ethers.getAddress` for non-checksummed addresses. -/
def hexDigitValL (c : Char) : Option Nat :=
  if '0' ≤ c ∧ c ≤ '9' then some (c.toNat - 48)
  else if 'a' ≤ c ∧ c ≤ 'f' then some (c.toNat - 87)
  else none

/-- Value of a hex digit character, either case, as accepted by
`BigNumber.from` / `ethers.toBigInt` on `0x`-prefixed strings. -/
def hexDigitVal (c : Char) : Option Nat :=
  if '0' ≤ c ∧ c ≤ '9' then some (c.toNat - 48)
  else if 'a' ≤ c ∧ c ≤ 'f' then some (c.toNat - 87)
  else if 'A' ≤ c ∧ c ≤ 'F' then some (c.toNat - 55)
  else none

/-- Value of a decimal digit character. -/
def decDigitVal (c : Char) : Option Nat :=
  if '0' ≤ c ∧ c ≤ '9' then some (c.toNat - 48)
  else none

/-- Big-endian positional parse of a digit string: fails on the first
character the digit function rejects. -/
def parseAcc (base : Nat) (dv : Char → Option Nat) (acc : Nat) :
    List Char → Option Nat
  | [] => some acc
  | c :: cs =>
    match dv c with
    | some d => parseAcc base dv (acc * base + d) cs
    | none => none

/-- Fuel-driven little-endian digit expansion (structurally recursive so that
the kernel can evaluate it, unlike `Nat.digits`). -/
def digitsFuel (base : Nat) : Nat → Nat → List Nat
  | 0, _ => []
  | fuel + 1, n => if n = 0 then [] else n % base :: digitsFuel base fuel (n / base)

/-- Little-endian base-`base` digits of `n` (executable; agrees with
`Nat.digits` for `2 ≤ base`). -/
def digitsLE (base n : Nat) : List Nat :=
  digitsFuel base (n + 1) n

/-- Printable character of a hex digit (lowercase, as ethers renders). -/
def hexDigitChar (d : Nat) : Char :=
  if d < 10 then Char.ofNat (48 + d) else Char.ofNat (87 + d)

/-- Printable character of a decimal digit. -/
def decDigitChar (d : Nat) : Char :=
  Char.ofNat (48 + d)

/-- The 64-lowercase-hex-digit big-endian rendering of a 32-byte word,
without the `0x` prefix. -/
def hex64Chars (n : Nat) : List Char :=
  let ds := digitsLE 16 n
  ((ds ++ List.replicate (64 - ds.length) 0).reverse).map hexDigitChar

/-- A 32-byte topic/data word as it appears in a receipt:
`0x` followed by 64 lowercase hex digits, big-endian. -/
def toHexWord (n : Nat) : String :=
  "0x" ++ String.mk (hex64Chars n)

/-- Model of JS `String.prototype.toLowerCase` on the ASCII strings that occur
in the source (addresses, symbols). -/
def jsToLower (s : String) : String :=
  String.mk (s.toList.map Char.toLower)

/-- `needle` occurs at the start of `hay`. -/
def isPrefixCh : List Char → List Char → Bool
  | [], _ => true
  | _ :: _, [] => false
  | a :: as, b :: bs => a == b && isPrefixCh as bs

/-- `needle` occurs somewhere inside `hay`. -/
def containsSub (needle : List Char) : List Char → Bool
  | [] => needle.isEmpty
  | c :: cs => isPrefixCh needle (c :: cs) || containsSub needle cs

/-- Model of JS `hay.includes(needle)`. -/
def jsIncludes (hay needle : String) : Bool :=
  containsSub needle.toList hay.toList

/-- Model of `ethers.getAddress('0x' + s)` restricted to the canonical inputs
that occur in receipts: succeeds exactly on 40 lowercase hex digits, returning
the 160-bit address value. -/
def getAddressVal (s : List Char) : Option Nat :=
  if s.length = 40 then parseAcc 16 hexDigitValL 0 s else none

/-- Model of `BigNumber.from` / `ethers.toBigInt` on the `0x`-prefixed hex
strings found in log `data`/`topics` fields: any-case hex digits after the
prefix (possibly none), anything else throws (`none`). -/
def bigNumberFrom (s : String) : Option Nat :=
  match s.toList with
  | '0' :: 'x' :: rest => parseAcc 16 hexDigitVal 0 rest
  | _ => none

/-! ## Data model (spec §3) -/

/-- `RawLog` of spec §3: one receipt log entry. -/
structure RawLog where
  address : String
  topics : List String
  data : String
deriving DecidableEq, Repr

/-- Decoded ERC-20 transfer as built by
`BaseMetricsCollector.extractTokenTransfers` (`TokenTransfer` interface).
`fromAddr`/`toAddr` hold the 160-bit address values. -/
structure TokenTransfer where
  token : String
  fromAddr : Nat
  toAddr : Nat
  amount : Nat
  symbol : String
  decimals : Nat
deriving DecidableEq, Repr

/-- `TransactionCategory` enum of `BaseMetricsCollector`. -/
inductive TransactionCategory where
  | TRANSFER
  | DEFI_SWAP
  | DEFI_LIQUIDITY
  | NFT_TRADE
  | CONTRACT_DEPLOYMENT
  | CONTRACT_INTERACTION
  | BRIDGE
  | UNKNOWN
deriving DecidableEq, Repr

/-! ## BaseMetricsCollector: decoding and classification -/

/-- The keccak topic of `Transfer(address,address,uint256)`, as hardcoded in
`extractTokenTransfers` and `parseNFTLogs`. -/
def transferEventSignature : String :=
  "0xddf252ad1be2c89b69c2b068fc378daa952ba7f163c4a11628f55a4df523b3ef"

/-- `BaseMetricsCollector.initializeKnownContracts`: exact-case keyed map from
address to symbol. -/
def knownContracts : List (String × String) :=
  [("0x4200000000000000000000000000000000000006", "WETH"),
   ("0x833589fCD6eDb6E08f4c7C32D4f71b54bdA02913", "USDC"),
   ("0x50c5725949A6F0c72E6C4a641F24049A917DB0Cb", "DAI")]

/-- Body of the `extractTokenTransfers` loop for one log: the signature/arity
guard, then the `try` block (`getAddress` on the sliced topics,
`BigNumber.from` on the data); `none` means the log is skipped, either by the
guard or by the `catch`. The slice index 26 counts the `0x` prefix plus the 24
high hex digits of the 32-byte topic.  `decimals` is the hardcoded `18`
(source comment: "Default, should be fetched from contract"). -/
def extractTransferOne (log : RawLog) : Option TokenTransfer :=
  if log.topics.headD "" == transferEventSignature && log.topics.length == 3 then
    match getAddressVal ((log.topics.getD 1 "").toList.drop 26),
        getAddressVal ((log.topics.getD 2 "").toList.drop 26),
        bigNumberFrom log.data with
    | some f, some t, some a =>
      some { token := log.address, fromAddr := f, toAddr := t, amount := a,
             symbol := ((knownContracts.lookup log.address).getD "UNKNOWN"),
             decimals := 18 }
    | _, _, _ => none
  else none

/-- `BaseMetricsCollector.extractTokenTransfers`: single pass over the receipt
logs, pushing each successfully parsed transfer, silently skipping the rest. -/
def extractTokenTransfers (logs : List RawLog) : List TokenTransfer :=
  logs.filterMap extractTransferOne

/-- JS truthiness of the `tx.to` field (`null`/`undefined` or the empty string
are falsy). -/
def jsFalsyTo (toF : Option String) : Bool :=
  match toF with
  | none => true
  | some s => s == ""

/-- `BaseMetricsCollector.categorizeTransaction`, branch for branch:
the first branch tests `!tx.to || (tx.value.gt(0) && receipt.logs.length === 0)`,
so a `null` destination is captured there and the later
`CONTRACT_DEPLOYMENT` branch is dead. -/
def categorizeTransaction (toF : Option String) (value : Nat)
    (logs : List RawLog) (tokenTransfers : List TokenTransfer) :
    TransactionCategory :=
  if jsFalsyTo toF || (decide (0 < value) && (logs.length == 0)) then
    .TRANSFER
  else if jsFalsyTo toF then
    .CONTRACT_DEPLOYMENT
  else if 1 < tokenTransfers.length then
    .DEFI_SWAP
  else if tokenTransfers.length == 1 then
    .TRANSFER
  else if 0 < logs.length then
    .CONTRACT_INTERACTION
  else
    .UNKNOWN

/-! ## BaseNFTAnalyzer.parseNFTLogs -/

/-- Row produced by `BaseNFTAnalyzer.parseNFTLogs`. -/
structure NFTTransferRec where
  address : String
  tokenId : Nat
  fromAddr : Nat
  toAddr : Nat
deriving DecidableEq, Repr

/-- Body of the `parseNFTLogs` `map` callback for one filtered log.  The
source reads `ethers.toBigInt(log.topics[3])` and `ethers.getAddress` on the
sliced topics with no arity check and no `try`/`catch`, so a missing fourth
topic or malformed bytes throw out of the whole call (`none`). -/
def parseNFTOne (log : RawLog) : Option NFTTransferRec :=
  match log.topics.drop 3 with
  | [] => none
  | t3 :: _ =>
    match bigNumberFrom t3,
        getAddressVal ((log.topics.getD 1 "").toList.drop 26),
        getAddressVal ((log.topics.getD 2 "").toList.drop 26) with
    | some tid, some f, some t =>
      some { address := log.address, tokenId := tid, fromAddr := f, toAddr := t }
    | _, _, _ => none

/-- `BaseNFTAnalyzer.parseNFTLogs`: filter on the Transfer topic, then map the
unguarded parse over the survivors; `none` models the exception escaping the
call. -/
def parseNFTLogs (logs : List RawLog) : Option (List NFTTransferRec) :=
  (logs.filter (fun l => l.topics.headD "" == transferEventSignature)).mapM parseNFTOne

/-! ## BaseBridgeAnalyzer.determineBridgeDirection -/

/-- The four bridge phases of `BridgeTransaction['direction']`. -/
inductive BridgeDirection where
  | deposit
  | withdrawal
  | prove
  | finalize
deriving DecidableEq, Repr

/-- `bridgeContracts.l1StandardBridge` as initialized in the constructor. -/
def l1StandardBridge : String := "0x3154Cf16ccdb4C6d922629664174b904d80F2C35"

/-- `bridgeContracts.l2StandardBridge` as initialized in the constructor. -/
def l2StandardBridge : String := "0x4200000000000000000000000000000000000010"

/-- `bridgeContracts.optimismPortal` as initialized in the constructor. -/
def optimismPortal : String := "0x49048044D57e1C92A77f79988d21Fa8fAF74E97e"

/-- `BaseBridgeAnalyzer.determineBridgeDirection`.  Note the portal branch
scans `log.topics[0]` only — not every topic — for the substring `"Proven"`. -/
def determineBridgeDirection (toF : Option String) (logs : List RawLog) :
    BridgeDirection :=
  if jsFalsyTo toF then .deposit
  else
    let contractAddress := jsToLower (toF.getD "")
    if contractAddress == jsToLower l1StandardBridge then .deposit
    else if contractAddress == jsToLower l2StandardBridge then .withdrawal
    else if contractAddress == jsToLower optimismPortal then
      (if logs.any (fun log => jsIncludes (log.topics.headD "") "Proven") then
        .prove
      else .finalize)
    else .deposit

/-! ## DeFiProtocolAnalyzer: protocol registry and detection -/

/-- `contractAddresses` record of `ProtocolConfig` (the `abi: []` placeholder
field is constant and omitted). -/
structure ContractAddresses where
  router : Option String := none
  factory : Option String := none
  quoter : Option String := none
  pool : Option String := none
deriving DecidableEq, Repr

/-- `ProtocolConfig` of `DeFiProtocolAnalyzer`. -/
structure ProtocolConfig where
  name : String
  version : String
  contractAddresses : ContractAddresses
deriving DecidableEq, Repr

/-- The `protocols` map as populated by
`DeFiProtocolAnalyzer.initializeProtocols`, in insertion order. -/
def protocols : List (String × ProtocolConfig) :=
  [("uniswap-v3",
    { name := "Uniswap V3", version := "3.0",
      contractAddresses :=
        { router := some "0x2626664c2603336E57B271c5C0b26F421741e481",
          factory := some "0x33128a8fC17869897dcE68Ed026d694621f6FDfD",
          quoter := some "0x3d4e44Eb1374240CE5F1B871ab261CD16335B76a" } }),
   ("aerodrome",
    { name := "Aerodrome", version := "1.0",
      contractAddresses :=
        { router := some "0xcF77a3Ba9A5CA399B7c97c74d54e5b1Beb874E43",
          factory := some "0x420DD381b31aEf6683db6B902084cB0FFECe40Da" } }),
   ("compound-v3",
    { name := "Compound V3", version := "3.0",
      contractAddresses :=
        { pool := some "0x9c4ec768c28520B50860ea7a15bd7213a9fF58bf" } })]

/-- `Object.values(protocol.contractAddresses)`: the present entries, in key
insertion order. -/
def addressValues (ca : ContractAddresses) : List String :=
  [ca.router, ca.factory, ca.quoter, ca.pool].filterMap id

/-- `DeFiProtocolAnalyzer.detectProtocol`: lowercases the queried address and
tests exact membership (`Array.prototype.includes`) in the stored —
mixed-case! — address strings. -/
def detectProtocol (contractAddress : Option String) : Option ProtocolConfig :=
  match contractAddress with
  | none => none
  | some a =>
    (protocols.find? (fun p =>
      (addressValues p.2.contractAddresses).contains (jsToLower a))).map (·.2)

/-! ## BaseNetworkUtils: static registry tables -/

/-- `BaseContract` row (constant `abi: []` omitted). -/
structure BaseContract where
  name : String
  address : String
  category : String
deriving DecidableEq, Repr

/-- `BaseNetworkUtils.BASE_CONTRACTS`, verbatim. -/
def BASE_CONTRACTS : List BaseContract :=
  [{ name := "Uniswap V3 Router",
     address := "0x2626664c2603336E57B271c5C0b26F421741e481", category := "defi" },
   { name := "Uniswap V3 Factory",
     address := "0x33128a8fC17869897dcE68Ed026d694621f6FDfD", category := "defi" },
   { name := "Aerodrome Router",
     address := "0xcF77a3Ba9A5CA399B7c97c74d54e5b1Beb874E43", category := "defi" },
   { name := "Aerodrome Factory",
     address := "0x420DD381b31aEf6683db6B902084cB0FFECe40Da", category := "defi" },
   { name := "Compound V3 USDC",
     address := "0x9c4ec768c28520B50860ea7a15bd7213a9fF58bf", category := "defi" },
   { name := "Base Bridge",
     address := "0x3154Cf16ccdb4C6d922629664174b904d80F2C35", category := "bridge" },
   { name := "WETH",
     address := "0x4200000000000000000000000000000000000006",
     category := "infrastructure" }]

/-- `BaseNetworkUtils.getContractInfo`: case-insensitive exact match
(`find(...) || null`). -/
def getContractInfo (address : String) : Option BaseContract :=
  BASE_CONTRACTS.find? (fun c => jsToLower c.address == jsToLower address)

/-- `BaseToken` row (`logoURI`/`coingeckoId` metadata omitted). -/
structure BaseToken where
  symbol : String
  name : String
  address : String
  decimals : Nat
deriving DecidableEq, Repr

/-- `BaseNetworkUtils.BASE_TOKENS`, verbatim. -/
def BASE_TOKENS : List BaseToken :=
  [{ symbol := "ETH", name := "Ethereum",
     address := "0x0000000000000000000000000000000000000000", decimals := 18 },
   { symbol := "WETH", name := "Wrapped Ether",
     address := "0x4200000000000000000000000000000000000006", decimals := 18 },
   { symbol := "USDC", name := "USD Coin",
     address := "0x833589fCD6eDb6E08f4c7C32D4f71b54bdA02913", decimals := 6 },
   { symbol := "USDbC", name := "USD Base Coin",
     address := "0xd9aAEc86B65D86f6A7B5B1b0c42FFA531710b6CA", decimals := 6 },
   { symbol := "DAI", name := "Dai Stablecoin",
     address := "0x50c5725949A6F0c72E6C4a641F24049A917DB0Cb", decimals := 18 },
   { symbol := "AERO", name := "Aerodrome Finance",
     address := "0x940181a94A35A4569E4529A3CDfB74e38FD98631", decimals := 18 },
   { symbol := "COMP", name := "Compound",
     address := "0x9e1028F5F1D5eDE59748FFceE5532509976840E0", decimals := 18 }]

/-- `BaseNetworkUtils.getTokenInfo`: case-insensitive match on address or
symbol. -/
def getTokenInfo (addressOrSymbol : String) : Option BaseToken :=
  let search := jsToLower addressOrSymbol
  BASE_TOKENS.find? (fun t =>
    jsToLower t.address == search || jsToLower t.symbol == search)

/-! ## Gas metrics -/

/-- The `efficiencyRating` scale of `GasMetrics` (spec §3). -/
inductive EfficiencyRating where
  | Excellent
  | Good
  | Average
  | Poor
deriving DecidableEq, Repr

/-- Modelled from the spec: `calculateGasEfficiency` of
`src/BaseTransactionAnalyzer.ts`, a file absent from the repository (only its
tests and callers remain).  Spec §4.4: `usagePercentage = gasUsed/gasLimit*100`
(undefined with rating `Average` when `gasLimit` is zero); thresholds
`>= 90 → Excellent`, `>= 70 → Good`, `>= 40 → Average`, else `Poor`. -/
def calculateGasEfficiency (gasUsed gasLimit : ℚ) : ℚ × EfficiencyRating :=
  if gasLimit = 0 then (0, .Average)
  else
    let usagePercentage := gasUsed / gasLimit * 100
    (usagePercentage,
      if 90 ≤ usagePercentage then .Excellent
      else if 70 ≤ usagePercentage then .Good
      else if 40 ≤ usagePercentage then .Average
      else .Poor)

/-- Model of `ethers.formatEther` (v6, `formatUnits(wei, 18)`): the exact
decimal rendering of `wei / 10^18` — integer part, a dot, then the 18
fractional digits with trailing zeros trimmed (at least one digit kept). -/
def formatEther (wei : Nat) : String :=
  let q := wei / 10 ^ 18
  let r := wei % 10 ^ 18
  let ds := digitsLE 10 r
  let fracLE := ds ++ List.replicate (18 - ds.length) 0
  let trimmed := fracLE.dropWhile (· == 0)
  let fracBE := if trimmed.isEmpty then [0] else trimmed.reverse
  let intBE := if q == 0 then [0] else (digitsLE 10 q).reverse
  String.mk (intBE.map decDigitChar ++ '.' :: fracBE.map decDigitChar)

/-- `GasOptimizer.calculateGasCost`: `BigInt(gasUsed) * BigInt(gasPrice)`
rendered with `ethers.formatEther`. -/
def calculateGasCost (gasUsed gasPrice : Nat) : String :=
  formatEther (gasUsed * gasPrice)

/-- Exact rational value of a decimal string `intpart.fracpart`; `none` when
the string is not of that shape. -/
def parseDecimal (s : String) : Option ℚ :=
  let l := s.toList
  let intPart := l.takeWhile (fun c => !(c == '.'))
  match l.dropWhile (fun c => !(c == '.')) with
  | [] => none
  | _ :: fracPart =>
    if fracPart.isEmpty then none
    else
      match parseAcc 10 decDigitVal 0 intPart, parseAcc 10 decDigitVal 0 fracPart with
      | some i, some f => some ((i : ℚ) + (f : ℚ) / 10 ^ fracPart.length)
      | _, _ => none

/-! ## DeFiProtocolAnalyzer.getImpermanentLossCalculation

The source computes with JS IEEE-754 numbers.  `JSNum` models that number
line exactly where the claims need it — finite values carried as exact reals,
plus the `NaN`/`±Infinity` special values and their propagation rules —
while eliding rounding (every step of the concrete claims below is exact).
Signed zero is not modelled (no claim divides by a negative zero). -/

/-- A JS `number`: `NaN`, the two infinities, or a finite value. -/
inductive JSNum where
  | nan
  | inf
  | ninf
  | fin (x : ℝ)

/-- JS addition. -/
noncomputable def jsAdd : JSNum → JSNum → JSNum
  | .nan, _ => .nan
  | _, .nan => .nan
  | .inf, .ninf => .nan
  | .ninf, .inf => .nan
  | .inf, _ => .inf
  | _, .inf => .inf
  | .ninf, _ => .ninf
  | _, .ninf => .ninf
  | .fin a, .fin b => .fin (a + b)

/-- JS subtraction. -/
noncomputable def jsSub : JSNum → JSNum → JSNum
  | .nan, _ => .nan
  | _, .nan => .nan
  | .inf, .inf => .nan
  | .ninf, .ninf => .nan
  | .inf, _ => .inf
  | _, .inf => .ninf
  | .ninf, _ => .ninf
  | _, .ninf => .inf
  | .fin a, .fin b => .fin (a - b)

/-- JS multiplication. -/
noncomputable def jsMul : JSNum → JSNum → JSNum
  | .nan, _ => .nan
  | _, .nan => .nan
  | .inf, .inf => .inf
  | .inf, .ninf => .ninf
  | .ninf, .inf => .ninf
  | .ninf, .ninf => .inf
  | .inf, .fin b => if b = 0 then .nan else if 0 < b then .inf else .ninf
  | .fin a, .inf => if a = 0 then .nan else if 0 < a then .inf else .ninf
  | .ninf, .fin b => if b = 0 then .nan else if 0 < b then .ninf else .inf
  | .fin a, .ninf => if a = 0 then .nan else if 0 < a then .ninf else .inf
  | .fin a, .fin b => .fin (a * b)

/-- JS division (positive-zero denominator convention). -/
noncomputable def jsDiv : JSNum → JSNum → JSNum
  | .nan, _ => .nan
  | _, .nan => .nan
  | .inf, .inf => .nan
  | .inf, .ninf => .nan
  | .ninf, .inf => .nan
  | .ninf, .ninf => .nan
  | .inf, .fin b => if b < 0 then .ninf else .inf
  | .ninf, .fin b => if b < 0 then .inf else .ninf
  | .fin _, .inf => .fin 0
  | .fin _, .ninf => .fin 0
  | .fin a, .fin b =>
    if b = 0 then (if a = 0 then .nan else if 0 < a then .inf else .ninf)
    else .fin (a / b)

/-- JS `Math.abs`. -/
noncomputable def jsAbs : JSNum → JSNum
  | .nan => .nan
  | .inf => .inf
  | .ninf => .inf
  | .fin a => .fin |a|

/-- JS `Math.sqrt`. -/
noncomputable def jsSqrt : JSNum → JSNum
  | .nan => .nan
  | .inf => .inf
  | .ninf => .nan
  | .fin a => if a < 0 then .nan else .fin (Real.sqrt a)

/-- `DeFiProtocolAnalyzer.getImpermanentLossCalculation` (the `poolAddress`
parameter is unused in the source body): `priceRatio = currentPrice/entryPrice`,
`impermanentLoss = 2*sqrt(priceRatio)/(1+priceRatio) - 1`, returning
`Math.abs(impermanentLoss) * 100`.  Straight-line arithmetic: no input is
checked and nothing can throw. -/
noncomputable def getImpermanentLossCalculation (_poolAddress : String)
    (entryPrice currentPrice : JSNum) : JSNum :=
  let priceRatio := jsDiv currentPrice entryPrice
  let impermanentLoss :=
    jsSub (jsDiv (jsMul (.fin 2) (jsSqrt priceRatio)) (jsAdd (.fin 1) priceRatio))
      (.fin 1)
  jsMul (jsAbs impermanentLoss) (.fin 100)

/-! ## Claim theorems -/

/-- C1: the claim says a `TransactionContext` with `to = null` is always
classified `ContractDeployment`.  The code's first branch
(`!tx.to || (value > 0 && logs.length === 0)`) already captures `to = null`
and returns `TRANSFER`, so the dedicated `CONTRACT_DEPLOYMENT` branch is dead:
evaluating the classifier at a bare contract-creation context (null `to`,
zero value, no logs, no transfers) yields `TRANSFER`, and no input whatsoever
yields `CONTRACT_DEPLOYMENT`. -/
theorem c1_null_to_is_transfer_eval :
    categorizeTransaction none 0 [] [] = .TRANSFER ∧
    ∀ (toF : Option String) (value : Nat) (logs : List RawLog)
      (tt : List TokenTransfer),
      categorizeTransaction toF value logs tt ≠ .CONTRACT_DEPLOYMENT := by
  constructor
  · rfl
  · intro toF value logs tt
    unfold categorizeTransaction
    split
    · simp
    next h =>
      rw [if_neg]
      · split
        · simp
        · split
          · simp
          · split <;> simp
      · intro hf
        exact h (by simp [hf])

/-- C10: every classification lands in
`{TRANSFER, DEFI_SWAP, CONTRACT_INTERACTION, UNKNOWN}`; consequently the
`CONTRACT_DEPLOYMENT` branch is unreachable and `NFT_TRADE`,
`DEFI_LIQUIDITY` and `BRIDGE` are never produced. -/
theorem c10_reachable_categories :
    ∀ (toF : Option String) (value : Nat) (logs : List RawLog)
      (tt : List TokenTransfer),
      categorizeTransaction toF value logs tt = .TRANSFER ∨
      categorizeTransaction toF value logs tt = .DEFI_SWAP ∨
      categorizeTransaction toF value logs tt = .CONTRACT_INTERACTION ∨
      categorizeTransaction toF value logs tt = .UNKNOWN := by
  intro toF value logs tt
  unfold categorizeTransaction
  split
  · exact Or.inl rfl
  next h =>
    rw [if_neg]
    · split
      · exact Or.inr (Or.inl rfl)
      · split
        · exact Or.inl rfl
        · split
          · exact Or.inr (Or.inr (Or.inl rfl))
          · exact Or.inr (Or.inr (Or.inr rfl))
    · intro hf
      exact h (by simp [hf])

/-- C6: the claim says registry lookup is case-insensitive for every table
entry and returns the not-found sentinel otherwise.  `getContractInfo`
behaves that way, but `detectProtocol` lowercases only the query while its
table stores checksummed mixed-case strings, so it returns `null` even for
the Uniswap V3 Router address written exactly as stored — contradicting the
repository's own test, which expects `analyzeSwap` to report "Uniswap V3" for
that destination. -/
theorem c6_detectProtocol_never_matches_eval :
    detectProtocol (some "0x2626664c2603336E57B271c5C0b26F421741e481") = none ∧
    detectProtocol (some "0x2626664c2603336e57b271c5c0b26f421741e481") = none ∧
    (protocols.lookup "uniswap-v3").map (fun p => p.contractAddresses.router) =
      some (some "0x2626664c2603336E57B271c5C0b26F421741e481") ∧
    getContractInfo "0x2626664c2603336E57B271c5C0b26F421741e481" =
      some { name := "Uniswap V3 Router",
             address := "0x2626664c2603336E57B271c5C0b26F421741e481",
             category := "defi" } ∧
    getContractInfo "0x2626664C2603336E57B271C5C0B26F421741E481" =
      some { name := "Uniswap V3 Router",
             address := "0x2626664c2603336E57B271c5C0b26F421741e481",
             category := "defi" } ∧
    getContractInfo "0x1234567890123456789012345678901234567890" = none := by
  refine ⟨by decide, by decide, by decide, by decide, by decide, by decide⟩

/-- C5 counterexample: a transaction to the portal contract whose logs carry
the `"Proven"` marker in a *non-first* topic.  The claim says such a
transaction is classified `prove`; `determineBridgeDirection` inspects only
`topics[0]` of each log and returns `finalize`. -/
theorem c5_counterexample :
    jsIncludes "0xWithdrawalProven" "Proven" = true ∧
    determineBridgeDirection (some optimismPortal)
      [{ address := "0xa", topics := ["0xdead", "0xWithdrawalProven"],
         data := "0x" }] = .finalize := by
  refine ⟨by decide, by decide⟩

/-- C5 (amended): destination `l1StandardBridge` always yields `deposit` and
`l2StandardBridge` always yields `withdrawal`; destination `optimismPortal`
yields `prove` exactly when the *first* topic (`topics[0]`) of some log
contains the substring `"Proven"`, and `finalize` otherwise (for logs whose
topic lists are nonempty, matching the JS access `log.topics[0]`). -/
theorem c5_bridge_direction (logs : List RawLog) :
    determineBridgeDirection (some l1StandardBridge) logs = .deposit ∧
    determineBridgeDirection (some l2StandardBridge) logs = .withdrawal ∧
    ((∀ l ∈ logs, l.topics ≠ []) →
      determineBridgeDirection (some optimismPortal) logs =
        if logs.any (fun log => jsIncludes (log.topics.headD "") "Proven") then
          .prove
        else .finalize) := by
  refine ⟨?_, ?_, fun _ => ?_⟩
  · show determineBridgeDirection (some l1StandardBridge) logs = .deposit
    unfold determineBridgeDirection
    rw [if_neg (by decide), if_pos (by decide)]
  · unfold determineBridgeDirection
    rw [if_neg (by decide), if_neg (by decide), if_pos (by decide)]
  · unfold determineBridgeDirection
    rw [if_neg (by decide), if_neg (by decide), if_neg (by decide),
      if_pos (by decide)]

/-- C5 witness: the portal conjunct of `c5_bridge_direction` applied to a
concrete log whose first topic carries the marker. -/
theorem c5_bridge_direction_witness :
    determineBridgeDirection (some optimismPortal)
      [{ address := "0xa", topics := ["0xWithdrawalProvenV1"], data := "0x" }] =
      .prove := by
  have h := (c5_bridge_direction
    [{ address := "0xa", topics := ["0xWithdrawalProvenV1"], data := "0x" }]).2.2
    (by decide)
  rw [h]
  decide

/-- C4: the claim says decimals are resolved through the address registry
(6 for the registered USDC token), defaulting to 18 only for unknown
addresses.  The code hardcodes `decimals: 18` (source comment: "Default,
should be fetched from contract"): decoding a Transfer log emitted by the
registered USDC contract yields decimals 18 even though the registry row for
that same address says 6. -/
theorem c4_decimals_hardcoded_eval :
    (extractTokenTransfers
      [{ address := "0x833589fCD6eDb6E08f4c7C32D4f71b54bdA02913",
         topics := [transferEventSignature, toHexWord 7, toHexWord 9],
         data := toHexWord 1000000 }]).map (fun tr => tr.decimals) = [18] ∧
    (getTokenInfo "0x833589fCD6eDb6E08f4c7C32D4f71b54bdA02913").map
      (fun tk => tk.decimals) = some 6 := by
  refine ⟨by decide, by decide⟩

/-- C2 counterexample: an ERC-20-shaped Transfer log (3 topics) is
structurally malformed for `parseNFTLogs` (there is no `topics[3]`), and the
claim says decoding must exclude it and never raise.  Instead
`ethers.toBigInt(log.topics[3])` throws out of `parseNFTLogs` (modelled by
`none`): the call neither returns an event list nor degrades to
`Unrecognized`. -/
theorem c2_counterexample :
    ({ address := "0xT",
       topics := [transferEventSignature, toHexWord 7, toHexWord 9],
       data := toHexWord 5 } : RawLog).topics.headD "" =
      transferEventSignature ∧
    parseNFTLogs
      [{ address := "0xT",
         topics := [transferEventSignature, toHexWord 7, toHexWord 9],
         data := toHexWord 5 }] = none := by
  refine ⟨by decide, by decide⟩

/-- C8: with a positive gas limit, `usagePercentage = gasUsed/gasLimit*100`,
and the rating intervals are exactly `[90, ∞) → Excellent`,
`[70, 90) → Good`, `[40, 70) → Average`, `(-∞, 40) → Poor`; in particular
`(21000, 21000) ↦ (100, Excellent)` and `(5000, 100000) ↦ (5, Poor)`. -/
theorem c8_gas_efficiency :
    (∀ (gasUsed gasLimit : ℚ), 0 < gasLimit →
      (calculateGasEfficiency gasUsed gasLimit).1 = gasUsed / gasLimit * 100 ∧
      ((calculateGasEfficiency gasUsed gasLimit).2 = .Excellent ↔
        90 ≤ gasUsed / gasLimit * 100) ∧
      ((calculateGasEfficiency gasUsed gasLimit).2 = .Good ↔
        70 ≤ gasUsed / gasLimit * 100 ∧ gasUsed / gasLimit * 100 < 90) ∧
      ((calculateGasEfficiency gasUsed gasLimit).2 = .Average ↔
        40 ≤ gasUsed / gasLimit * 100 ∧ gasUsed / gasLimit * 100 < 70) ∧
      ((calculateGasEfficiency gasUsed gasLimit).2 = .Poor ↔
        gasUsed / gasLimit * 100 < 40)) ∧
    calculateGasEfficiency 21000 21000 = (100, .Excellent) ∧
    calculateGasEfficiency 5000 100000 = (5, .Poor) := by
  refine ⟨?_, by norm_num [calculateGasEfficiency], by norm_num [calculateGasEfficiency]⟩
  intro gasUsed gasLimit hl
  unfold calculateGasEfficiency
  rw [if_neg (ne_of_gt hl)]
  dsimp only
  split_ifs with h1 h2 h3 <;>
    refine ⟨rfl, ?_, ?_, ?_, ?_⟩ <;>
    simp <;>
    (first
      | assumption
      | linarith
      | (constructor <;> linarith)
      | (intro hx; linarith))

/-- C8 witness: `c8_gas_efficiency` applied at the claim's first example. -/
theorem c8_gas_efficiency_witness :
    0 < (21000 : ℚ) ∧ (calculateGasEfficiency 21000 21000).1 = 21000 / 21000 * 100 :=
  ⟨by norm_num, (c8_gas_efficiency.1 21000 21000 (by norm_num)).1⟩

/-- C2 (amended): both decoders silently exclude any log whose `topics[0]` is
not the Transfer signature; `extractTokenTransfers` moreover excludes — and
never throws on — logs with the wrong topic count, non-numeric data, or
malformed address bytes (its per-log parse is total, every failure yielding
`none` = "skipped"); `parseNFTLogs`, however, is only exception-free on
unrecognized signatures (the malformed Transfer-shaped case raises, see the
counterexample). -/
theorem c2_unrecognized_excluded (log : RawLog) :
    (log.topics.headD "" ≠ transferEventSignature →
      extractTransferOne log = none ∧ parseNFTLogs [log] = some []) ∧
    (log.topics.length ≠ 3 → extractTransferOne log = none) ∧
    (bigNumberFrom log.data = none → extractTransferOne log = none) ∧
    (getAddressVal ((log.topics.getD 1 "").toList.drop 26) = none →
      extractTransferOne log = none) ∧
    (getAddressVal ((log.topics.getD 2 "").toList.drop 26) = none →
      extractTransferOne log = none) := by
  refine ⟨fun h => ⟨?_, ?_⟩, fun h => ?_, fun h => ?_, fun h => ?_, fun h => ?_⟩
  · unfold extractTransferOne
    split
    next hcond =>
      simp only [Bool.and_eq_true, beq_iff_eq] at hcond
      exact absurd hcond.1 h
    next => rfl
  · have hb : (log.topics.headD "" == transferEventSignature) = false :=
      beq_eq_false_iff_ne.mpr h
    unfold parseNFTLogs
    simp only [List.filter_cons, List.filter_nil]
    rw [if_neg]
    · rfl
    · rw [hb]
      decide
  · unfold extractTransferOne
    split
    next hcond =>
      simp only [Bool.and_eq_true, beq_iff_eq] at hcond
      exact absurd hcond.2 h
    next => rfl
  · unfold extractTransferOne
    split
    · cases hx : getAddressVal ((log.topics.getD 1 "").toList.drop 26) <;>
        cases hy : getAddressVal ((log.topics.getD 2 "").toList.drop 26) <;>
        cases hd : bigNumberFrom log.data <;>
        first | rfl | simp_all
    · rfl
  · unfold extractTransferOne
    split
    · cases hx : getAddressVal ((log.topics.getD 1 "").toList.drop 26) <;>
        cases hy : getAddressVal ((log.topics.getD 2 "").toList.drop 26) <;>
        cases hd : bigNumberFrom log.data <;>
        first | rfl | simp_all
    · rfl
  · unfold extractTransferOne
    split
    · cases hx : getAddressVal ((log.topics.getD 1 "").toList.drop 26) <;>
        cases hy : getAddressVal ((log.topics.getD 2 "").toList.drop 26) <;>
        cases hd : bigNumberFrom log.data <;>
        first | rfl | simp_all
    · rfl

/-- C2 witness: `c2_unrecognized_excluded` applied to a log with an
unrecognized signature and empty data. -/
theorem c2_unrecognized_excluded_witness :
    extractTransferOne { address := "0xT", topics := ["0xfeed"], data := "zz" } =
      none ∧
    parseNFTLogs [{ address := "0xT", topics := ["0xfeed"], data := "zz" }] =
      some [] :=
  (c2_unrecognized_excluded
    { address := "0xT", topics := ["0xfeed"], data := "zz" }).1 (by decide)

/-- Evaluation of the impermanent-loss body on finite inputs with a positive
entry price and nonnegative current price: every intermediate step stays
finite and exact. -/
theorem jsIL_fin_eval (pool : String) (e c : ℝ) (he : 0 < e) (hc : 0 ≤ c) :
    getImpermanentLossCalculation pool (.fin e) (.fin c) =
      .fin (|2 * Real.sqrt (c / e) / (1 + c / e) - 1| * 100) := by
  have hene : e ≠ 0 := ne_of_gt he
  have hr : 0 ≤ c / e := div_nonneg hc he.le
  have h1r : 1 + c / e ≠ 0 := by positivity
  have d1 : jsDiv (.fin c) (.fin e) = .fin (c / e) := by
    simp only [jsDiv]
    rw [if_neg hene]
  have s1 : jsSqrt (.fin (c / e)) = .fin (Real.sqrt (c / e)) := by
    simp only [jsSqrt]
    rw [if_neg (not_lt.mpr hr)]
  have d2 : jsDiv (.fin (2 * Real.sqrt (c / e))) (.fin (1 + c / e)) =
      .fin (2 * Real.sqrt (c / e) / (1 + c / e)) := by
    simp only [jsDiv]
    rw [if_neg h1r]
  simp only [getImpermanentLossCalculation, d1, s1, jsMul, jsAdd]
  rw [d2]
  simp only [jsSub, jsAbs, jsMul]

/-- C7 (amended): for a positive entry price (and nonnegative current price)
the result is exactly `|2*sqrt(currentPrice/entryPrice) /
(1 + currentPrice/entryPrice) - 1| * 100`, and it is exactly `0` when the two
prices coincide; but a non-positive entry price is *not* rejected — see the
counterexample, where the call silently evaluates to `NaN`. -/
theorem c7_impermanent_loss (pool : String) (e c : ℝ) :
    (0 < e → 0 ≤ c →
      getImpermanentLossCalculation pool (.fin e) (.fin c) =
        .fin (|2 * Real.sqrt (c / e) / (1 + c / e) - 1| * 100)) ∧
    (0 < e →
      getImpermanentLossCalculation pool (.fin e) (.fin e) = .fin 0) := by
  refine ⟨fun he hc => jsIL_fin_eval pool e c he hc, fun he => ?_⟩
  rw [jsIL_fin_eval pool e e he he.le, div_self (ne_of_gt he), Real.sqrt_one]
  exact congrArg JSNum.fin (by norm_num)

/-- C7 witness: `c7_impermanent_loss` at entry price 2000 = current price
2000, the claim's own "exactly zero" example. -/
theorem c7_impermanent_loss_witness :
    getImpermanentLossCalculation "0xpool" (.fin 2000) (.fin 2000) = .fin 0 :=
  (c7_impermanent_loss "0xpool" 2000 2000).2 (by norm_num)

/-- C7 counterexample: the claim says `entryPrice <= 0` is an error
(a reported precondition violation).  The source body is straight-line
arithmetic with no check and nothing to throw: at `entryPrice = -2000`,
`currentPrice = 2000` the call *returns* the value `NaN`
(`sqrt(-1)` propagating through), so no error is raised. -/
theorem c7_counterexample :
    getImpermanentLossCalculation "0xpool" (.fin (-2000)) (.fin 2000) = .nan := by
  have d1 : jsDiv (JSNum.fin (2000 : ℝ)) (.fin (-2000)) = .fin (-1) := by
    simp only [jsDiv]
    rw [if_neg (by norm_num)]
    exact congrArg JSNum.fin (by norm_num)
  have s1 : jsSqrt (JSNum.fin (-1 : ℝ)) = .nan := by
    simp only [jsSqrt]
    rw [if_pos (by norm_num)]
  simp only [getImpermanentLossCalculation]
  rw [d1, s1]
  simp only [jsMul, jsAdd, jsDiv, jsSub, jsAbs]

/-! ## Digit machinery: the executable digit functions agree with `Nat.digits`,
and big-endian parsing inverts big-endian printing. -/

/-- `digitsFuel` computes `Nat.digits` whenever the fuel bounds the input. -/
theorem digitsFuel_eq_digits (b : ℕ) (hb : 1 < b) :
    ∀ (fuel n : ℕ), n < b ^ fuel → digitsFuel b fuel n = Nat.digits b n := by
  intro fuel
  induction fuel with
  | zero =>
    intro n hn
    have hn0 : n = 0 := Nat.lt_one_iff.mp (by simpa using hn)
    subst hn0
    rw [Nat.digits_zero]
    rfl
  | succ fuel ih =>
    intro n hn
    by_cases hz : n = 0
    · subst hz
      simp [digitsFuel]
    · rw [digitsFuel, if_neg hz, Nat.digits_def' hb (Nat.pos_of_ne_zero hz),
        ih (n / b)]
      rw [Nat.div_lt_iff_lt_mul (lt_trans one_pos hb)]
      rw [← pow_succ]
      exact hn

/-- `digitsLE` agrees with `Nat.digits`. -/
theorem digitsLE_eq (b n : ℕ) (hb : 1 < b) : digitsLE b n = Nat.digits b n := by
  apply digitsFuel_eq_digits b hb
  calc n < 2 ^ n := Nat.lt_two_pow n
    _ ≤ b ^ n := Nat.pow_le_pow_left hb n
    _ ≤ b ^ (n + 1) := Nat.pow_le_pow_right (lt_trans one_pos hb) (Nat.le_succ n)

/-- A number below `b ^ k` has at most `k` base-`b` digits. -/
theorem digits_len_le_of_lt_base_pow (b n k : ℕ) (hb : 1 < b)
    (h : n < b ^ k) : (Nat.digits b n).length ≤ k := by
  by_cases hz : n = 0
  · subst hz
    simp
  · have h1 : b ^ (Nat.digits b n).length ≤ b * n :=
      Nat.base_pow_length_digits_le b n hb hz
    have h2 : b * n < b * b ^ k := by
      exact (mul_lt_mul_left (lt_trans one_pos hb)).mpr h
    rw [← pow_succ'] at h2
    have := lt_of_le_of_lt h1 h2
    exact Nat.lt_succ_iff.mp ((Nat.pow_lt_pow_iff_right hb).mp this)

/-- Parsing the printed big-endian form of a digit list recovers its value. -/
theorem parseAcc_map (b : ℕ) (dv : Char → Option Nat) (pc : Nat → Char)
    (hdv : ∀ d, d < b → dv (pc d) = some d) :
    ∀ (bs : List Nat) (acc : Nat), (∀ d ∈ bs, d < b) →
      parseAcc b dv acc (bs.map pc) =
        some (Nat.ofDigits b bs.reverse + acc * b ^ bs.length) := by
  intro bs
  induction bs with
  | nil =>
    intro acc _
    simp [parseAcc, Nat.ofDigits_nil]
  | cons d rest ih =>
    intro acc h
    have hd : d < b := h d (List.mem_cons_self d rest)
    rw [List.map_cons, parseAcc, hdv d hd]
    show parseAcc b dv (acc * b + d) (List.map pc rest) = _
    rw [ih (acc * b + d) (fun x hx => h x (List.mem_cons_of_mem d hx))]
    congr 1
    rw [List.reverse_cons, Nat.ofDigits_append, Nat.ofDigits_singleton,
      List.length_reverse, List.length_cons]
    ring

/-- Round-trip of a lowercase hex digit through print/parse (strict parser). -/
theorem hexDigitValL_char (d : ℕ) (h : d < 16) :
    hexDigitValL (hexDigitChar d) = some d := by
  interval_cases d <;> decide

/-- Round-trip of a lowercase hex digit through print/parse (any-case parser). -/
theorem hexDigitVal_char (d : ℕ) (h : d < 16) :
    hexDigitVal (hexDigitChar d) = some d := by
  interval_cases d <;> decide

/-- Round-trip of a decimal digit through print/parse. -/
theorem decDigitVal_char (d : ℕ) (h : d < 10) :
    decDigitVal (decDigitChar d) = some d := by
  interval_cases d <;> decide

/-- A digit list of zeros has value zero. -/
theorem ofDigits_zero_of_all_zero (b : ℕ) :
    ∀ (l : List ℕ), (∀ x ∈ l, x = 0) → Nat.ofDigits b l = 0 := by
  intro l
  induction l with
  | nil => intro _; rfl
  | cons x xs ih =>
    intro h
    rw [Nat.ofDigits_cons, h x (List.mem_cons_self x xs),
      ih (fun y hy => h y (List.mem_cons_of_mem x hy))]
    ring

/-- A 32-byte word always renders to exactly 64 hex characters. -/
theorem hex64Chars_length (w : ℕ) (hw : w < 16 ^ 64) :
    (hex64Chars w).length = 64 := by
  have hlen : (Nat.digits 16 w).length ≤ 64 :=
    digits_len_le_of_lt_base_pow 16 w 64 (by norm_num) hw
  unfold hex64Chars
  rw [digitsLE_eq 16 w (by norm_num)]
  simp only [List.length_map, List.length_reverse, List.length_append,
    List.length_replicate]
  omega

/-- Parsing the low `t` hex characters of a rendered 32-byte word yields the
word reduced modulo `16 ^ t` (for any parser that inverts the digit chars). -/
theorem parse_hex64_drop (dv : Char → Option Nat)
    (hdv : ∀ d, d < 16 → dv (hexDigitChar d) = some d)
    (w t : ℕ) (hw : w < 16 ^ 64) (ht : t ≤ 64) :
    parseAcc 16 dv 0 ((hex64Chars w).drop (64 - t)) = some (w % 16 ^ t) := by
  have hb16 : (1:ℕ) < 16 := by norm_num
  have hlen : (Nat.digits 16 w).length ≤ 64 :=
    digits_len_le_of_lt_base_pow 16 w 64 hb16 hw
  set ds := Nat.digits 16 w with hds
  set padded := ds ++ List.replicate (64 - ds.length) 0 with hpadded
  have hpadlen : padded.length = 64 := by
    rw [hpadded]
    simp only [List.length_append, List.length_replicate]
    omega
  have hpadbound : ∀ d ∈ padded, d < 16 := by
    intro d hd
    rcases List.mem_append.mp hd with h | h
    · exact Nat.digits_lt_base hb16 h
    · rw [(List.mem_replicate.mp h).2]
      norm_num
  have hofpad : Nat.ofDigits 16 padded = w := by
    rw [hpadded, Nat.ofDigits_append, hds, Nat.ofDigits_digits,
      ofDigits_zero_of_all_zero 16 _ (fun x hx => (List.mem_replicate.mp hx).2)]
    ring
  have hchars : hex64Chars w = (padded.reverse).map hexDigitChar := by
    unfold hex64Chars
    rw [digitsLE_eq 16 w hb16]
  rw [hchars, ← List.map_drop]
  have hdrop : padded.reverse.drop (64 - t) = (padded.take t).reverse := by
    rw [List.reverse_take, hpadlen]
  rw [hdrop]
  rw [parseAcc_map 16 dv hexDigitChar hdv (padded.take t).reverse 0
    (fun d hd => hpadbound d (List.take_subset t padded (List.mem_reverse.mp hd)))]
  rw [List.reverse_reverse, zero_mul, add_zero]
  congr 1
  have hlen_take : (padded.take t).length = t := by
    rw [List.length_take, hpadlen]
    exact min_eq_left ht
  have hv : Nat.ofDigits 16 (padded.take t) < 16 ^ t := by
    have h := Nat.ofDigits_lt_base_pow_length hb16
      (fun x hx => hpadbound x (List.take_subset t padded hx))
    rwa [hlen_take] at h
  have hsplit : Nat.ofDigits 16 padded =
      Nat.ofDigits 16 (padded.take t) +
        16 ^ t * Nat.ofDigits 16 (padded.drop t) := by
    conv_lhs => rw [← List.take_append_drop t padded]
    rw [Nat.ofDigits_append, hlen_take]
  rw [← hofpad, hsplit, Nat.add_mul_mod_self_left, Nat.mod_eq_of_lt hv]

/-- Slicing a rendered 32-byte topic at character 26 and validating it as an
address yields the word's low 20 bytes. -/
theorem getAddressVal_topic (w : ℕ) (hw : w < 2 ^ 256) :
    getAddressVal ((toHexWord w).toList.drop 26) = some (w % 2 ^ 160) := by
  have h16 : w < 16 ^ 64 := by
    calc w < 2 ^ 256 := hw
      _ = 16 ^ 64 := by
        rw [show (16:ℕ) = 2 ^ 4 from rfl, ← pow_mul]
  have htl : (toHexWord w).toList = '0' :: 'x' :: hex64Chars w := rfl
  have hdrop : List.drop 26 ('0' :: 'x' :: hex64Chars w) =
      (hex64Chars w).drop 24 := rfl
  rw [htl, hdrop]
  unfold getAddressVal
  rw [if_pos (by simp [List.length_drop, hex64Chars_length w h16])]
  have h := parse_hex64_drop hexDigitValL hexDigitValL_char w 40 h16 (by norm_num)
  rw [show (64 - 40 : ℕ) = 24 from rfl] at h
  rw [h, show (16:ℕ) ^ 40 = 2 ^ 160 from by norm_num]

/-- `BigNumber.from` on a rendered 32-byte data word recovers the amount. -/
theorem bigNumberFrom_toHexWord (a : ℕ) (ha : a < 2 ^ 256) :
    bigNumberFrom (toHexWord a) = some a := by
  have h16 : a < 16 ^ 64 := by
    calc a < 2 ^ 256 := ha
      _ = 16 ^ 64 := by
        rw [show (16:ℕ) = 2 ^ 4 from rfl, ← pow_mul]
  have htl : (toHexWord a).toList = '0' :: 'x' :: hex64Chars a := rfl
  show (match (toHexWord a).toList with
    | '0' :: 'x' :: rest => parseAcc 16 hexDigitVal 0 rest
    | _ => none) = some a
  rw [htl]
  show parseAcc 16 hexDigitVal 0 (hex64Chars a) = some a
  have h := parse_hex64_drop hexDigitVal hexDigitVal_char a 64 h16 (le_refl 64)
  rw [show (64 - 64 : ℕ) = 0 from rfl, List.drop_zero] at h
  rw [h, Nat.mod_eq_of_lt h16]

/-- The Transfer-signature/arity guard of `extractTransferOne` passes on a
three-topic Transfer log, leaving the three parses. -/
theorem extractTransferOne_eq (addr t1 t2 d : String) :
    extractTransferOne
      { address := addr, topics := [transferEventSignature, t1, t2],
        data := d } =
      (match getAddressVal (t1.toList.drop 26),
          getAddressVal (t2.toList.drop 26), bigNumberFrom d with
      | some f, some t, some a =>
        some { token := addr, fromAddr := f, toAddr := t, amount := a,
               symbol := (knownContracts.lookup addr).getD "UNKNOWN",
               decimals := 18 }
      | _, _, _ => none) := rfl

/-- C3: decoding a well-formed Transfer log
`topics = [transferSig, pad(w1), pad(w2)]`, `data = pad(a)` produces a
`TokenTransfer` whose `from`/`to` are exactly the low 20 bytes
(`bytes 12..31`, i.e. the value mod `2^160`) of `topics[1]`/`topics[2]` and
whose raw amount is exactly the big-endian integer of the data word. -/
theorem c3_transfer_decoding (addr : String) (w1 w2 a : ℕ)
    (h1 : w1 < 2 ^ 256) (h2 : w2 < 2 ^ 256) (ha : a < 2 ^ 256) :
    extractTransferOne
      { address := addr,
        topics := [transferEventSignature, toHexWord w1, toHexWord w2],
        data := toHexWord a } =
      some { token := addr, fromAddr := w1 % 2 ^ 160, toAddr := w2 % 2 ^ 160,
             amount := a,
             symbol := (knownContracts.lookup addr).getD "UNKNOWN",
             decimals := 18 } := by
  rw [extractTransferOne_eq, getAddressVal_topic w1 h1,
    getAddressVal_topic w2 h2, bigNumberFrom_toHexWord a ha]

/-- C3 witness: `c3_transfer_decoding` at the registered USDC token address
with small concrete words. -/
theorem c3_transfer_decoding_witness :
    extractTransferOne
      { address := "0x833589fCD6eDb6E08f4c7C32D4f71b54bdA02913",
        topics := [transferEventSignature, toHexWord 7, toHexWord 9],
        data := toHexWord 1000000 } =
      some { token := "0x833589fCD6eDb6E08f4c7C32D4f71b54bdA02913",
             fromAddr := 7 % 2 ^ 160, toAddr := 9 % 2 ^ 160,
             amount := 1000000,
             symbol := (knownContracts.lookup
               "0x833589fCD6eDb6E08f4c7C32D4f71b54bdA02913").getD "UNKNOWN",
             decimals := 18 } :=
  c3_transfer_decoding "0x833589fCD6eDb6E08f4c7C32D4f71b54bdA02913" 7 9 1000000
    (by norm_num) (by norm_num) (by norm_num)

/-- `takeWhile`/`dropWhile` split an appended list exactly at the first
element failing the predicate. -/
theorem takeWhile_dropWhile_append (p : Char → Bool) :
    ∀ (l1 : List Char) (x : Char) (l2 : List Char),
      (∀ c ∈ l1, p c = true) → p x = false →
      (l1 ++ x :: l2).takeWhile p = l1 ∧ (l1 ++ x :: l2).dropWhile p = x :: l2 := by
  intro l1
  induction l1 with
  | nil =>
    intro x l2 _ hx
    constructor <;> simp [List.takeWhile_cons, List.dropWhile_cons, hx]
  | cons c cs ih =>
    intro x l2 h1 hx
    have hc : p c = true := h1 c (List.mem_cons_self c cs)
    have ih2 := ih x l2 (fun d hd => h1 d (List.mem_cons_of_mem c hd)) hx
    constructor
    · simp [List.cons_append, List.takeWhile_cons, hc, ih2.1]
    · simp [List.cons_append, List.dropWhile_cons, hc, ih2.2]

/-- `parseDecimal` on an explicit character list. -/
theorem parseDecimal_mk (l : List Char) :
    parseDecimal (String.mk l) =
      (match l.dropWhile (fun c => !(c == '.')) with
      | [] => none
      | _ :: fracPart =>
        if fracPart.isEmpty then none
        else
          match parseAcc 10 decDigitVal 0 (l.takeWhile (fun c => !(c == '.'))),
              parseAcc 10 decDigitVal 0 fracPart with
          | some i, some f => some ((i : ℚ) + (f : ℚ) / 10 ^ fracPart.length)
          | _, _ => none) := rfl

/-- The decimal string produced by `formatEther` denotes exactly
`wei / 10^18`: no fractional digit is lost (trailing-zero trimming removes
only exact zeros), so the full 18-digit precision survives. -/
theorem parseDecimal_formatEther (wei : ℕ) :
    parseDecimal (formatEther wei) = some ((wei : ℚ) / 10 ^ 18) := by
  have h10 : (1:ℕ) < 10 := by norm_num
  set q := wei / 10 ^ 18 with hqdef
  set r := wei % 10 ^ 18 with hrdef
  have hrlt : r < 10 ^ 18 := Nat.mod_lt _ (by positivity)
  set ds := digitsLE 10 r with hdsdef
  set fracLE := ds ++ List.replicate (18 - ds.length) 0 with hfracdef
  set trimmed := fracLE.dropWhile (fun d => d == 0) with htrimdef
  set fracBE := if trimmed.isEmpty then [0] else trimmed.reverse with hfracBE
  set intBE := if q == 0 then [0] else (digitsLE 10 q).reverse with hintBE
  have hfmt : formatEther wei =
      String.mk (intBE.map decDigitChar ++ '.' :: fracBE.map decDigitChar) := rfl
  have hdseq : ds = Nat.digits 10 r := digitsLE_eq 10 r h10
  have hdslen : ds.length ≤ 18 := by
    rw [hdseq]
    exact digits_len_le_of_lt_base_pow 10 r 18 h10 hrlt
  have hfbound : ∀ d ∈ fracLE, d < 10 := by
    intro d hd
    rw [hfracdef] at hd
    rcases List.mem_append.mp hd with hmem | hmem
    · rw [hdseq] at hmem
      exact Nat.digits_lt_base h10 hmem
    · rw [(List.mem_replicate.mp hmem).2]
      norm_num
  have hflen : fracLE.length = 18 := by
    rw [hfracdef]
    simp only [List.length_append, List.length_replicate]
    omega
  have hofrac : Nat.ofDigits 10 fracLE = r := by
    rw [hfracdef, Nat.ofDigits_append, hdseq, Nat.ofDigits_digits,
      ofDigits_zero_of_all_zero 10 _ (fun x hx => (List.mem_replicate.mp hx).2)]
    ring
  set tw := fracLE.takeWhile (fun d => d == 0) with htwdef
  have hsplit : tw ++ trimmed = fracLE := List.takeWhile_append_dropWhile _ _
  have htwz : ∀ x ∈ tw, x = 0 := by
    intro x hx
    rw [htwdef] at hx
    have := List.mem_takeWhile_imp hx
    simpa using this
  have hofr : r = 10 ^ tw.length * Nat.ofDigits 10 trimmed := by
    rw [← hofrac, ← hsplit, Nat.ofDigits_append,
      ofDigits_zero_of_all_zero 10 tw htwz]
    ring
  have hlen2 : tw.length + trimmed.length = 18 := by
    rw [← hflen, ← hsplit, List.length_append]
  have htrimbound : ∀ d ∈ trimmed, d < 10 := by
    intro d hd
    apply hfbound
    rw [htrimdef] at hd
    exact (List.dropWhile_sublist _).subset hd
  have hfracBEbound : ∀ d ∈ fracBE, d < 10 := by
    intro d hd
    rw [hfracBE] at hd
    split at hd
    · simp at hd
      omega
    · exact htrimbound d (List.mem_reverse.mp hd)
  have hintbound : ∀ d ∈ intBE, d < 10 := by
    intro d hd
    rw [hintBE] at hd
    split at hd
    · simp at hd
      omega
    · rw [digitsLE_eq 10 q h10] at hd
      exact Nat.digits_lt_base h10 (List.mem_reverse.mp hd)
  have hfracBEne : fracBE ≠ [] := by
    rw [hfracBE]
    split
    · simp
    next hne =>
      intro hcontra
      rw [List.reverse_eq_nil_iff] at hcontra
      rw [hcontra] at hne
      simp at hne
  have hp1 : ∀ c ∈ intBE.map decDigitChar, (fun c => !(c == '.')) c = true := by
    intro c hc
    obtain ⟨d, hd, rfl⟩ := List.mem_map.mp hc
    have hd10 := hintbound d hd
    interval_cases d <;> decide
  have hpx : (fun c => !(c == '.')) '.' = false := by decide
  obtain ⟨htake, hdrop⟩ := takeWhile_dropWhile_append (fun c => !(c == '.'))
    (intBE.map decDigitChar) '.' (fracBE.map decDigitChar) hp1 hpx
  have hmapne : (fracBE.map decDigitChar).isEmpty = false := by
    cases hfb : fracBE with
    | nil => exact absurd hfb hfracBEne
    | cons a l => rfl
  rw [hfmt, parseDecimal_mk, htake, hdrop]
  dsimp only
  rw [if_neg (by simp [hmapne])]
  rw [parseAcc_map 10 decDigitVal decDigitChar decDigitVal_char intBE 0 hintbound,
    parseAcc_map 10 decDigitVal decDigitChar decDigitVal_char fracBE 0 hfracBEbound]
  dsimp only
  simp only [zero_mul, add_zero, List.length_map, Option.some.injEq]
  have hI : Nat.ofDigits 10 intBE.reverse = q := by
    rw [hintBE]
    split
    next hq0 =>
      have hq00 : q = 0 := by simpa using hq0
      rw [show ([0] : List ℕ).reverse = [0] from rfl, Nat.ofDigits_singleton,
        hq00]
    next =>
      rw [List.reverse_reverse, digitsLE_eq 10 q h10, Nat.ofDigits_digits]
  have hwei : wei = 10 ^ 18 * q + r := (Nat.div_add_mod wei (10 ^ 18)).symm
  rw [hI]
  have key : ∀ (T K V Q : ℕ),
      ((10 ^ (T + K) * Q + 10 ^ T * V : ℕ) : ℚ) / 10 ^ (T + K) =
        (Q : ℚ) + (V : ℚ) / 10 ^ K := by
    intro T K V Q
    have h1 : ((10 : ℚ) ^ T) ≠ 0 := by positivity
    have h2 : ((10 : ℚ) ^ K) ≠ 0 := by positivity
    push_cast
    rw [pow_add]
    field_simp
    ring
  by_cases hT : trimmed = []
  · have hr0 : r = 0 := by
      rw [hofr, hT]
      simp [Nat.ofDigits_nil]
    have hfracBE0 : fracBE = [0] := by
      rw [hfracBE, hT]
      rfl
    rw [hfracBE0]
    rw [show ([0] : List ℕ).reverse = [0] from rfl, Nat.ofDigits_singleton]
    rw [hwei, hr0]
    rw [show (([0] : List ℕ).length) = 1 from rfl]
    rw [show (18 : ℕ) = 17 + 1 from by norm_num]
    rw [show (10 ^ (17 + 1) * q + 0 : ℕ) = 10 ^ (17 + 1) * q + 10 ^ 17 * 0 from
      by ring]
    exact (key 17 1 0 q).symm
  · have hie : trimmed.isEmpty = false := by
      cases htr2 : trimmed with
      | nil => exact absurd htr2 hT
      | cons a l => rfl
    have hfracBEtr : fracBE = trimmed.reverse := by
      rw [hfracBE, hie]
      rfl
    rw [hfracBEtr, List.reverse_reverse, List.length_reverse]
    rw [hwei, hofr]
    rw [show (18 : ℕ) = tw.length + trimmed.length from hlen2.symm]
    exact (key tw.length trimmed.length (Nat.ofDigits 10 trimmed) q).symm

/-- C9: `calculateGasCost` returns the exact decimal rendering of
`gasUsed * gasPrice / 10^18` — the product is taken over arbitrary-precision
integers and the division loses no precision at all (a fortiori at least 6
fractional digits are preserved); in particular 21000 gas at 20 gwei renders
as `"0.00042"`. -/
theorem c9_gas_cost :
    (∀ (gasUsed gasPrice : ℕ),
      parseDecimal (calculateGasCost gasUsed gasPrice) =
        some (((gasUsed * gasPrice : ℕ) : ℚ) / 10 ^ 18)) ∧
    calculateGasCost 21000 20000000000 = "0.00042" := by
  constructor
  · intro gasUsed gasPrice
    exact parseDecimal_formatEther (gasUsed * gasPrice)
  · decide
